import Mathlib

/-!
Shallow embedding of `predeval/runstat.py` (running statistics accumulators).

Modelling choices:
* Python floats are modelled exactly by `ℚ` plus an explicit NaN marker
  (`PyFloat`); the spec's merge-exactness claims are stated "modulo
  floating-point summation order", which exact rational arithmetic realises.
* Python's infinities `float("inf")` / `float("-inf")`, used only as the
  initial `minV` / `maxV`, are modelled by `WithTop ℚ` / `WithBot ℚ`.
* Observations (hashable Python values fed to `add`) are a tagged union of
  numeric scalars, NaN, text scalars and tuples of scalars, following the
  data model of the code and spec.
* Python dictionaries are insertion-ordered association lists with unique
  keys; `dictSet` updates in place, `dictGet` is lookup.
* `float(v)` coercion: numbers coerce to themselves, NaN stays NaN, strings
  go through `pyParseFloat` (sign and decimal forms, e.g. "2", "-3.5";
  non-numeric text such as "a" fails), tuples raise TypeError (here: `none`).
* Raising `ValueError`/`TypeError` is modelled with `Except Err`.
-/

/-- Scalar observation values: a finite number, NaN, or a text string. -/
inductive Scalar where
  | num (q : ℚ)
  | nan
  | str (s : String)
deriving DecidableEq

/-- An observation: a scalar or a tuple of scalars. -/
inductive Obs where
  | scalar (s : Scalar)
  | tup (elems : List Scalar)
deriving DecidableEq

/-- An accumulator title: a string or a tuple of strings. -/
inductive Title where
  | scalar (s : String)
  | tup (elems : List String)
deriving DecidableEq

/-- The result of a successful Python `float(v)` coercion. -/
inductive PyFloat where
  | nan
  | fin (q : ℚ)
deriving DecidableEq

/-- Value of a list of decimal digit characters. -/
def digitsVal (cs : List Char) : ℕ :=
  cs.foldl (fun a c => a * 10 + (c.toNat - 48)) 0

/-- Parse an unsigned decimal literal as Python `float` does on strings
such as "2", "3.5", "10.", ".5" (no exponent forms, which no claim uses). -/
def pyParseUnsigned (cs : List Char) : Option ℚ :=
  let intPart := cs.takeWhile Char.isDigit
  let rest := cs.dropWhile Char.isDigit
  match rest with
  | [] => if intPart.isEmpty then none else some (digitsVal intPart)
  | c :: frac =>
    if c = '.' ∧ frac.all Char.isDigit ∧ (intPart ≠ [] ∨ frac ≠ []) then
      some ((digitsVal intPart : ℚ) + (digitsVal frac : ℚ) / (10 : ℚ) ^ frac.length)
    else none

/-- Model of Python `float` applied to a string: optional sign, then an
unsigned decimal literal. -/
def pyParseFloat (s : String) : Option ℚ :=
  match s.toList with
  | '+' :: cs => pyParseUnsigned cs
  | '-' :: cs => (pyParseUnsigned cs).map Neg.neg
  | cs => pyParseUnsigned cs

/-- Model of Python `float(v)` on an observation: `none` is a
TypeError/ValueError (coercion failure). -/
def pyFloatOf : Obs → Option PyFloat
  | .scalar (.num q) => some (.fin q)
  | .scalar .nan => some .nan
  | .scalar (.str s) => (pyParseFloat s).map PyFloat.fin
  | .tup _ => none

/-- Whether a title is a tuple (`isinstance(self.title, tuple)`). -/
def Title.isTup : Title → Bool
  | .scalar _ => false
  | .tup _ => true

/-- Python `str` of a title (tuples printed in Python repr style). -/
def titleStr : Title → String
  | .scalar s => s
  | .tup [e] => "(" ++ "'" ++ e ++ "'" ++ ",)"
  | .tup es => "(" ++ String.intercalate ", " (es.map (fun e => "'" ++ e ++ "'")) ++ ")"

/-- Title of the lazily created bad-observation Counter:
`"{}(bad)".format(self.title)`. -/
def Title.badTitle (t : Title) : Title := .scalar (titleStr t ++ "(bad)")

/-- Errors raised by the accumulators (`ValueError` in the Python source). -/
inductive Err where
  | titleMismatch (t1 t2 : Title)
  | incompatibleObservation (t : Title) (o : Obs)
  | badMergeType
deriving DecidableEq

/-- Python dict from observations to weights, as an insertion-ordered
association list with unique keys. -/
abbrev Dict := List (Obs × ℚ)

/-- Dictionary lookup (`d.get(k)`). -/
def dictGet : Dict → Obs → Option ℚ
  | [], _ => none
  | p :: t, k => if p.1 = k then some p.2 else dictGet t k

/-- Dictionary update `d[k] = v`: replace in place, else append. -/
def dictSet : Dict → Obs → ℚ → Dict
  | [], k, v => [(k, v)]
  | p :: t, k, v => if p.1 = k then (k, v) :: t else p :: dictSet t k v

/-- `d[k] = d.get(k, 0) + n`, the update done by `Counter.add`. -/
def dictAdd (d : Dict) (k : Obs) (n : ℚ) : Dict :=
  dictSet d k ((dictGet d k).getD 0 + n)

/-- The `Counter` accumulator: a title and a frequency dictionary. -/
structure Counter where
  title : Title
  counts : Dict
deriving DecidableEq

/-- The arity check of `Counter.add`: true when the title is a tuple and the
observation is not a tuple of the same length. -/
def obsIncompatible (t : Title) (o : Obs) : Bool :=
  match t with
  | .tup ts =>
    match o with
    | .tup os => ts.length ≠ os.length
    | _ => true
  | .scalar _ => false

/-- `Counter.add(observation, n)`: arity-check against a tuple title, then
`counts[observation] = counts.get(observation, 0) + n`. -/
def Counter.add (c : Counter) (o : Obs) (n : ℚ) : Except Err Counter :=
  if obsIncompatible c.title o then .error (.incompatibleObservation c.title o)
  else .ok { c with counts := dictAdd c.counts o n }

/-- `Counter.num()`: sum of all weights in `counts`. -/
def Counter.num (c : Counter) : ℚ := (c.counts.map Prod.snd).sum

/-- A freshly constructed `Counter(title)`. -/
def Counter.init (t : Title) : Counter := ⟨t, []⟩

/-- The `NumStat` accumulator state. -/
structure NumStat where
  title : Title
  count : ℚ
  minV : WithTop ℚ
  minN : ℚ
  maxV : WithBot ℚ
  maxN : ℚ
  sumV : ℚ
  sum2 : ℚ
  nanCount : ℚ
  integer : Bool
  bad : Option Counter
deriving DecidableEq

/-- A freshly constructed `NumStat(title)`: `minV = float("inf")`,
`maxV = float("-inf")`, everything else zero/absent. -/
def NumStat.init (t : Title) : NumStat :=
  { title := t, count := 0, minV := ⊤, minN := 0, maxV := ⊥, maxN := 0,
    sumV := 0, sum2 := 0, nanCount := 0, integer := false, bad := none }

/-- The tie-or-replace minimum update shared by `NumStat.add` and
`NumStat.merge`: `if minV == v: minN += n; elif minV > v: minV, minN = v, n`. -/
def tieMin (cur cand : WithTop ℚ × ℚ) : WithTop ℚ × ℚ :=
  if cur.1 = cand.1 then (cur.1, cur.2 + cand.2)
  else if cand.1 < cur.1 then cand
  else cur

/-- The tie-or-replace maximum update shared by `NumStat.add` and
`NumStat.merge`: `if maxV == v: maxN += n; elif maxV < v: maxV, maxN = v, n`. -/
def tieMax (cur cand : WithBot ℚ × ℚ) : WithBot ℚ × ℚ :=
  if cur.1 = cand.1 then (cur.1, cur.2 + cand.2)
  else if cur.1 < cand.1 then cand
  else cur

/-- The valid-numeric branch of `NumStat.add`: update count, sums and both
extrema with a value `q` of weight `n`. -/
def NumStat.addValid (s : NumStat) (q : ℚ) (n : ℚ) : NumStat :=
  let mn := tieMin (s.minV, s.minN) ((q : WithTop ℚ), n)
  let mx := tieMax (s.maxV, s.maxN) ((q : WithBot ℚ), n)
  { s with
    count := s.count + n
    sumV := s.sumV + q * n
    sum2 := s.sum2 + q * q * n
    minV := mn.1
    minN := mn.2
    maxV := mx.1
    maxN := mx.2 }

/-- `NumStat.add(v, n)`: try `float(v)`; on coercion failure route `v` to the
lazily created `bad` Counter (titled `"{}(bad)"`), on NaN bump `nanCount`,
else update the running statistics. -/
def NumStat.add (s : NumStat) (v : Obs) (n : ℚ) : Except Err NumStat :=
  match pyFloatOf v with
  | none =>
    let b := match s.bad with
      | none => Counter.init s.title.badTitle
      | some b => b
    (b.add v n).map (fun b2 => { s with bad := some b2 })
  | some .nan => .ok { s with nanCount := s.nanCount + n }
  | some (.fin q) => .ok (s.addValid q n)

/-- `NumStat.num()`: `nanCount + count + (0 if bad is None else bad.num())`. -/
def NumStat.num (s : NumStat) : ℚ :=
  s.nanCount + s.count + (match s.bad with | none => 0 | some b => b.num)

/-- The argument of a `merge` call: a Counter, a NumStat, or any other
object carrying a title (so the shared title check can run on it). -/
inductive MVal where
  | counter (c : Counter)
  | numstat (s : NumStat)
  | other (title : Title)
deriving DecidableEq

/-- The `title` attribute of a merge argument. -/
def MVal.titleOf : MVal → Title
  | .counter c => c.title
  | .numstat s => s.title
  | .other t => t

/-- `Counter.merge(c)`: shared title check first, then require a Counter,
then fold every `(observation, weight)` entry through `add`. -/
def Counter.merge (c : Counter) (x : MVal) : Except Err Counter :=
  if c.title ≠ x.titleOf then .error (.titleMismatch c.title x.titleOf)
  else match x with
    | .counter d => d.counts.foldlM (fun acc p => acc.add p.1 p.2) c
    | _ => .error .badMergeType

/-- The NumStat-with-NumStat branch of `NumStat.merge`: add counts, sums and
nanCounts; combine extrema by the tie-or-replace rule.  Note the source does
not touch `self.bad` or `ns.bad` in this branch. -/
def NumStat.mergeNS (s b : NumStat) : NumStat :=
  let mn := tieMin (s.minV, s.minN) (b.minV, b.minN)
  let mx := tieMax (s.maxV, s.maxN) (b.maxV, b.maxN)
  { s with
    count := s.count + b.count
    minV := mn.1
    minN := mn.2
    maxV := mx.1
    maxN := mx.2
    sumV := s.sumV + b.sumV
    sum2 := s.sum2 + b.sum2
    nanCount := s.nanCount + b.nanCount }

/-- `NumStat.merge(ns)`: shared title check, then an `if isinstance NumStat /
elif isinstance Counter` dispatch with no `else` branch — an argument of any
other type falls through and the method returns with `self` unchanged. -/
def NumStat.merge (s : NumStat) (x : MVal) : Except Err NumStat :=
  if s.title ≠ x.titleOf then .error (.titleMismatch s.title x.titleOf)
  else match x with
    | .numstat b => .ok (s.mergeNS b)
    | .counter c => c.counts.foldlM (fun acc p => acc.add p.1 p.2) s
    | .other _ => .ok s

/-- `NumStat(title, values)` bulk construction: fold `add` with weight 1. -/
def NumStat.ofValues (t : Title) (l : List Obs) : Except Err NumStat :=
  l.foldlM (fun s v => s.add v 1) (NumStat.init t)

/-- `Counter(title, values)` bulk construction: fold `add` with weight 1. -/
def Counter.ofValues (t : Title) (l : List Obs) : Except Err Counter :=
  l.foldlM (fun c v => c.add v 1) (Counter.init t)

/-- `sys.float_info.epsilon` for IEEE double precision. -/
def machineEpsilon : ℚ := 1 / 2 ^ 52

/-- The value `self.maxV - self.minV` computed by `stdDev`.  Whenever
`count > 0` both extrema are finite in every reachable state, so the
fallback 0 for an infinite extremum is never exercised there. -/
def NumStat.span (s : NumStat) : ℚ := (s.maxV.unbot' 0) - (s.minV.untop' 0)

/-- Result of `NumStat.stdDev()`: NaN, the guard's exact 0, or
`math.sqrt(radicand)` (which is exactly 0 when the radicand is 0, and a
negative-radicand `ValueError` when it is negative). -/
inductive StdDevOut where
  | nan
  | guardZero
  | root (radicand : ℚ)
deriving DecidableEq

/-- `NumStat.stdDev()`: NaN when `count == 0`; exactly 0 when
`(maxV - minV) < epsilon * sum2`; else `sqrt(sum2/count - (sumV/count)^2)`. -/
def NumStat.stdDev (s : NumStat) : StdDevOut :=
  if s.count = 0 then .nan
  else if s.span < machineEpsilon * s.sum2 then .guardZero
  else .root (s.sum2 / s.count - s.sumV * s.sumV / (s.count * s.count))

def pyObs : PyFloat → Obs
  | .nan => .scalar .nan
  | .fin q => .scalar (.num q)

def addPy (s : NumStat) (x : PyFloat) : NumStat :=
  match x with
  | .nan => { s with nanCount := s.nanCount + 1 }
  | .fin q => s.addValid q 1

def buildPy (t : Title) (l : List PyFloat) : NumStat := l.foldl addPy (NumStat.init t)

def keys (d : Dict) : List Obs := d.map Prod.fst

/-- The effect on `counts` of folding every entry of `b` through `dictAdd`,
as `Counter.merge` and `NumStat.merge(Counter)` do. -/
def mergeCounts (a b : Dict) : Dict :=
  b.foldl (fun d p => dictAdd d p.1 p.2) a

/-- Well-formedness of a reachable Counter: unique keys and every key
compatible with the title's arity. -/
def Counter.wfb (c : Counter) : Bool :=
  decide ((keys c.counts).Nodup) && c.counts.all (fun p => !(obsIncompatible c.title p.1))

/-- Ill-formed `bad` buckets (tuple-titled) can never arise: the bad Counter
is always created with the scalar title `"<title>(bad)"`. -/
def NumStat.badOKb (s : NumStat) : Bool :=
  match s.bad with
  | none => true
  | some b => !b.title.isTup

/-- The example observation sequence `[1, 2, 1, 3, 0, 0, 0, 0, NaN]`. -/
def c3seq : List Obs :=
  [Obs.scalar (.num 1), Obs.scalar (.num 2), Obs.scalar (.num 1), Obs.scalar (.num 3),
   Obs.scalar (.num 0), Obs.scalar (.num 0), Obs.scalar (.num 0), Obs.scalar (.num 0),
   Obs.scalar .nan]

/-- The state actually reached by adding `c3seq` to a fresh NumStat. -/
def c3result : NumStat :=
  { title := .scalar "foo", count := 8, minV := (0 : ℚ), minN := 4,
    maxV := (3 : ℚ), maxN := 1, sumV := 7, sum2 := 15, nanCount := 1,
    integer := false, bad := none }

/-- The NumStat holding one uncoercible observation "abc" in its bad bucket. -/
def c4bad : NumStat :=
  { NumStat.init (Title.scalar "foo") with
      bad := some ⟨Title.scalar "foo(bad)", [(Obs.scalar (.str "abc"), 1)]⟩ }

/-- A Counter holding the numeric-looking text observation "2". -/
def c6counter : Counter := ⟨Title.scalar "foo", [(Obs.scalar (.str "2"), 1)]⟩

/-- The NumStat reached by merging `c6counter` into a fresh NumStat. -/
def c6result : NumStat :=
  { title := .scalar "foo", count := 1, minV := (2 : ℚ), minN := 1,
    maxV := (2 : ℚ), maxN := 1, sumV := 2, sum2 := 4, nanCount := 0,
    integer := false, bad := none }

/-- The NumStat reached by adding n copies of the constant q to a fresh
accumulator. -/
def constNS (t : Title) (q : ℚ) (n : ℕ) : NumStat :=
  { title := t, count := n, minV := (q : WithTop ℚ), minN := n,
    maxV := (q : WithBot ℚ), maxN := n, sumV := q * n, sum2 := q * q * n,
    nanCount := 0, integer := false, bad := none }

theorem tieMin_assoc (a b c : WithTop ℚ × ℚ) :
    tieMin (tieMin a b) c = tieMin a (tieMin b c) := by
  obtain ⟨va, na⟩ := a
  obtain ⟨vb, nb⟩ := b
  obtain ⟨vc, nc⟩ := c
  rcases lt_trichotomy va vb with h1 | h1 | h1
  · rcases lt_trichotomy vb vc with h2 | h2 | h2
    · have h3 : va < vc := h1.trans h2
      simp [tieMin, h1.ne, h1.asymm, h2.ne, h2.asymm, h3.ne, h3.asymm]
    · subst h2
      simp [tieMin, h1.ne, h1.asymm]
    · rcases lt_trichotomy va vc with h3 | h3 | h3
      · simp [tieMin, h1.ne, h1.asymm, h2.ne', h2, h3.ne, h3.asymm]
      · subst h3
        simp [tieMin, h1.ne, h1.ne', h1.asymm, h2.ne', h2]
      · simp [tieMin, h1.ne, h1.asymm, h2.ne', h2, h3.ne', h3]
  · subst h1
    rcases lt_trichotomy va vc with h2 | h2 | h2
    · simp [tieMin, h2.ne, h2.asymm]
    · subst h2
      simp [tieMin, add_assoc]
    · simp [tieMin, h2.ne', h2]
  · rcases lt_trichotomy vb vc with h2 | h2 | h2
    · rcases lt_trichotomy va vc with h3 | h3 | h3
      · simp [tieMin, h1.ne', h1, h2.ne, h2.asymm, h3.ne, h3.asymm]
      · subst h3
        simp [tieMin, h1.ne', h1, h2.ne, h2.asymm]
      · simp [tieMin, h1.ne', h1, h2.ne, h2.asymm, h3.ne', h3]
    · subst h2
      simp [tieMin, h1.ne', h1]
    · have h3 : vc < va := h2.trans h1
      simp [tieMin, h1.ne', h1, h2.ne', h2, h3.ne', h3]

theorem tieMax_assoc (a b c : WithBot ℚ × ℚ) :
    tieMax (tieMax a b) c = tieMax a (tieMax b c) := by
  obtain ⟨va, na⟩ := a
  obtain ⟨vb, nb⟩ := b
  obtain ⟨vc, nc⟩ := c
  rcases lt_trichotomy va vb with h1 | h1 | h1
  · rcases lt_trichotomy vb vc with h2 | h2 | h2
    · have h3 : va < vc := h1.trans h2
      simp [tieMax, h1.ne, h1, h2.ne, h2, h3.ne, h3]
    · subst h2
      simp [tieMax, h1.ne, h1]
    · rcases lt_trichotomy va vc with h3 | h3 | h3
      · simp [tieMax, h1.ne, h1, h2.ne', h2.asymm, h3.ne, h3]
      · subst h3
        simp [tieMax, h1.ne, h1.ne', h1, h2.ne', h2.asymm]
      · simp [tieMax, h1.ne, h1, h2.ne', h2.asymm, h3.ne', h3.asymm]
  · subst h1
    rcases lt_trichotomy va vc with h2 | h2 | h2
    · simp [tieMax, h2.ne, h2]
    · subst h2
      simp [tieMax, add_assoc]
    · simp [tieMax, h2.ne', h2.asymm]
  · rcases lt_trichotomy vb vc with h2 | h2 | h2
    · rcases lt_trichotomy va vc with h3 | h3 | h3
      · simp [tieMax, h1.ne', h1.asymm, h2.ne, h2, h3.ne, h3]
      · subst h3
        simp [tieMax, h1.ne', h1.asymm, h2.ne, h2]
      · simp [tieMax, h1.ne', h1.asymm, h2.ne, h2, h3.ne', h3.asymm]
    · subst h2
      simp [tieMax, h1.ne', h1.asymm]
    · have h3 : vc < va := h2.trans h1
      simp [tieMax, h1.ne', h1.asymm, h2.ne', h2.asymm, h3.ne', h3.asymm]

theorem tieMin_unit (p : WithTop ℚ × ℚ) : tieMin p (⊤, 0) = p := by
  obtain ⟨v, n⟩ := p
  simp only [tieMin]
  split_ifs with h1 h2
  · simp [h1]
  · exact absurd h2 (not_top_lt)
  · rfl

theorem tieMax_unit (p : WithBot ℚ × ℚ) : tieMax p (⊥, 0) = p := by
  obtain ⟨v, n⟩ := p
  simp only [tieMax]
  split_ifs with h1 h2
  · simp [h1]
  · exact absurd h2 (not_lt_bot)
  · rfl

theorem add_pyObs (s : NumStat) (x : PyFloat) : s.add (pyObs x) 1 = .ok (addPy s x) := by
  cases x <;> rfl

theorem ofValues_pyObs_fold (l : List PyFloat) (s : NumStat) :
    (l.map pyObs).foldlM (fun a v => a.add v 1) s = .ok (l.foldl addPy s) := by
  induction l generalizing s with
  | nil => rfl
  | cons x xs ih =>
    simp only [List.map_cons, List.foldlM_cons, add_pyObs, List.foldl_cons]
    exact ih (addPy s x)

theorem ofValues_buildPy (t : Title) (l : List PyFloat) :
    NumStat.ofValues t (l.map pyObs) = .ok (buildPy t l) :=
  ofValues_pyObs_fold l (NumStat.init t)

theorem addPy_title (s : NumStat) (x : PyFloat) : (addPy s x).title = s.title := by
  cases x <;> rfl

theorem foldl_addPy_title (l : List PyFloat) (s : NumStat) :
    (l.foldl addPy s).title = s.title := by
  induction l generalizing s with
  | nil => rfl
  | cons x xs ih => rw [List.foldl_cons, ih, addPy_title]

theorem buildPy_title (t : Title) (l : List PyFloat) : (buildPy t l).title = t :=
  foldl_addPy_title l (NumStat.init t)

theorem mergeNS_addPy (a b : NumStat) (x : PyFloat) :
    a.mergeNS (addPy b x) = addPy (a.mergeNS b) x := by
  obtain ⟨t1, c1, mv1, mn1, xv1, xn1, sv1, q1, nn1, i1, bd1⟩ := a
  obtain ⟨t2, c2, mv2, mn2, xv2, xn2, sv2, q2, nn2, i2, bd2⟩ := b
  cases x <;>
    simp [NumStat.mergeNS, addPy, NumStat.addValid, tieMin_assoc, tieMax_assoc,
      add_assoc]

theorem mergeNS_init (a : NumStat) (t : Title) : a.mergeNS (NumStat.init t) = a := by
  obtain ⟨t1, c1, mv1, mn1, xv1, xn1, sv1, q1, nn1, i1, bd1⟩ := a
  simp [NumStat.mergeNS, NumStat.init, tieMin_unit, tieMax_unit]

theorem mergeNS_foldl (a b : NumStat) (l : List PyFloat) :
    a.mergeNS (l.foldl addPy b) = l.foldl addPy (a.mergeNS b) := by
  induction l generalizing b with
  | nil => rfl
  | cons x xs ih => simp [List.foldl_cons, ih, mergeNS_addPy]

/-- C1: NumStat merge exactness — for any two sequences of numeric values and
NaNs, merging the accumulator of S1 with a same-titled accumulator of S2
produces exactly the accumulator of S1 ++ S2; in particular all of count,
sumV, sum2, minV, minN, maxV, maxN and nanCount agree (sums are exact here
because floats are modelled by ℚ), including when either operand is empty. -/
theorem numstat_merge_exact (t : Title) (S1 S2 : List PyFloat) :
    ∃ a b ab,
      NumStat.ofValues t (S1.map pyObs) = .ok a ∧
      NumStat.ofValues t (S2.map pyObs) = .ok b ∧
      NumStat.ofValues t ((S1 ++ S2).map pyObs) = .ok ab ∧
      a.merge (.numstat b) = .ok ab := by
  refine ⟨buildPy t S1, buildPy t S2, buildPy t (S1 ++ S2),
    ofValues_buildPy t S1, ofValues_buildPy t S2, ofValues_buildPy t (S1 ++ S2), ?_⟩
  rw [NumStat.merge]
  rw [if_neg (by simp [MVal.titleOf, buildPy_title])]
  show Except.ok ((buildPy t S1).mergeNS (buildPy t S2)) = _
  rw [buildPy, buildPy, buildPy, mergeNS_foldl, mergeNS_init, List.foldl_append]

theorem dictGet_eq_none_of_not_mem (d : Dict) (k : Obs) (h : k ∉ keys d) :
    dictGet d k = none := by
  induction d with
  | nil => rfl
  | cons p t ih =>
    simp only [keys, List.map_cons, List.mem_cons, not_or] at h
    rw [dictGet, if_neg (fun he => h.1 he.symm), ih (by simpa [keys] using h.2)]

theorem dictGet_dictSet (d : Dict) (k : Obs) (v : ℚ) (k2 : Obs) :
    dictGet (dictSet d k v) k2 = if k2 = k then some v else dictGet d k2 := by
  induction d with
  | nil => simp [dictSet, dictGet, eq_comm]
  | cons p t ih =>
    simp only [dictSet]
    by_cases hp : p.1 = k
    · rw [if_pos hp]
      by_cases h2 : k2 = k
      · subst h2; simp [dictGet]
      · have hpk : ¬ p.1 = k2 := fun he => h2 (hp.symm.trans he).symm
        have hk : ¬ k = k2 := fun he => h2 he.symm
        simp only [dictGet]
        rw [if_neg hk, if_neg h2, if_neg hpk]
    · rw [if_neg hp]
      by_cases h2 : k2 = k
      · subst h2
        have hpk : ¬ p.1 = k2 := hp
        simp [dictGet, hpk, ih]
      · by_cases hpk : p.1 = k2
        · simp [dictGet, hpk, h2, ih]
        · simp [dictGet, hpk, h2, ih]

theorem dictGet_dictAdd (d : Dict) (k : Obs) (n : ℚ) (k2 : Obs) :
    dictGet (dictAdd d k n) k2 =
      if k2 = k then some ((dictGet d k).getD 0 + n) else dictGet d k2 := by
  rw [dictAdd, dictGet_dictSet]

theorem keys_dictSet (d : Dict) (k : Obs) (v : ℚ) :
    keys (dictSet d k v) = if k ∈ keys d then keys d else keys d ++ [k] := by
  induction d with
  | nil => simp [dictSet, keys]
  | cons p t ih =>
    simp only [dictSet]
    by_cases hp : p.1 = k
    · rw [if_pos hp]
      have hm : k ∈ keys (p :: t) := by simp [keys, ← hp]
      rw [if_pos hm]
      simp [keys, hp]
    · rw [if_neg hp]
      simp only [keys, List.map_cons] at ih ⊢
      by_cases hm : k ∈ List.map Prod.fst t
      · rw [ih, if_pos hm, if_pos (List.mem_cons_of_mem _ hm)]
      · have hm2 : k ∉ p.1 :: List.map Prod.fst t := by
          simp only [List.mem_cons, not_or]
          exact ⟨fun he => hp he.symm, hm⟩
        rw [ih, if_neg hm, if_neg hm2, List.cons_append]

theorem keys_nodup_dictAdd (d : Dict) (k : Obs) (n : ℚ) (h : (keys d).Nodup) :
    (keys (dictAdd d k n)).Nodup := by
  rw [dictAdd, keys_dictSet]
  by_cases hm : k ∈ keys d
  · rwa [if_pos hm]
  · rw [if_neg hm]
    simp [List.nodup_append, h, hm]

theorem mem_keys_dictAdd (d : Dict) (k : Obs) (n : ℚ) (k2 : Obs) :
    k2 ∈ keys (dictAdd d k n) ↔ k2 ∈ keys d ∨ k2 = k := by
  rw [dictAdd, keys_dictSet]
  by_cases hm : k ∈ keys d
  · rw [if_pos hm]
    constructor
    · exact Or.inl
    · rintro (h | rfl)
      · exact h
      · exact hm
  · rw [if_neg hm]
    simp

theorem mergeCounts_nil (a : Dict) : mergeCounts a [] = a := rfl

theorem mergeCounts_cons (a : Dict) (p : Obs × ℚ) (t : Dict) :
    mergeCounts a (p :: t) = mergeCounts (dictAdd a p.1 p.2) t := rfl

theorem keys_nodup_mergeCounts (a b : Dict) (h : (keys a).Nodup) :
    (keys (mergeCounts a b)).Nodup := by
  induction b generalizing a with
  | nil => exact h
  | cons p t ih => exact ih _ (keys_nodup_dictAdd _ _ _ h)

theorem mem_keys_mergeCounts (a b : Dict) (k : Obs)
    (h : k ∈ keys (mergeCounts a b)) : k ∈ keys a ∨ k ∈ keys b := by
  induction b generalizing a with
  | nil => exact Or.inl h
  | cons p t ih =>
    rw [mergeCounts_cons] at h
    rcases ih _ h with h2 | h2
    · rcases (mem_keys_dictAdd _ _ _ _).mp h2 with h3 | h3
      · exact Or.inl h3
      · exact Or.inr (by simp [keys, h3])
    · exact Or.inr (by simp [keys]; exact Or.inr (by simpa [keys] using h2))

theorem dictGet_mergeCounts (a b : Dict) (hb : (keys b).Nodup) (k : Obs) :
    dictGet (mergeCounts a b) k =
      match dictGet b k with
      | some n => some ((dictGet a k).getD 0 + n)
      | none => dictGet a k := by
  induction b generalizing a with
  | nil => simp [mergeCounts, dictGet]
  | cons p t ih =>
    simp only [keys, List.map_cons, List.nodup_cons] at hb
    obtain ⟨hp, ht⟩ := hb
    rw [mergeCounts_cons, ih _ (by simpa [keys] using ht)]
    by_cases hk : p.1 = k
    · subst hk
      have hnone : dictGet t p.1 = none :=
        dictGet_eq_none_of_not_mem _ _ (by simpa [keys] using hp)
    
      rw [hnone, dictGet, if_pos rfl]
      rw [dictGet_dictAdd, if_pos rfl]
    · rw [dictGet, if_neg hk]
      cases hg : dictGet t k with
      | none => rw [dictGet_dictAdd, if_neg (fun he => hk he.symm)]
      | some n => rw [dictGet_dictAdd, if_neg (fun he => hk he.symm)]

theorem counter_fold_ok (l : Dict) (c : Counter)
    (h : ∀ p ∈ l, obsIncompatible c.title p.1 = false) :
    l.foldlM (fun acc p => Counter.add acc p.1 p.2) c =
      .ok ⟨c.title, mergeCounts c.counts l⟩ := by
  induction l generalizing c with
  | nil => rfl
  | cons p t ih =>
    have h1 : obsIncompatible c.title p.1 = false := h p (List.mem_cons_self _ _)
    rw [List.foldlM_cons, Counter.add, if_neg (by simp [h1])]
    have := ih ⟨c.title, dictAdd c.counts p.1 p.2⟩
      (fun p2 hp2 => h p2 (List.mem_cons_of_mem _ hp2))
    exact this.trans (by rw [mergeCounts_cons])

theorem wfb_nodup (c : Counter) (h : c.wfb = true) : (keys c.counts).Nodup := by
  simp only [Counter.wfb, Bool.and_eq_true, decide_eq_true_eq] at h
  exact h.1

theorem wfb_compat (c : Counter) (h : c.wfb = true) :
    ∀ p ∈ c.counts, obsIncompatible c.title p.1 = false := by
  simp only [Counter.wfb, Bool.and_eq_true, List.all_eq_true, Bool.not_eq_true'] at h
  exact h.2

theorem compat_of_keys (t : Title) (l : Dict)
    (h : ∀ p ∈ l, obsIncompatible t p.1 = false)
    (k : Obs) (hk : k ∈ keys l) : obsIncompatible t k = false := by
  simp only [keys, List.mem_map] at hk
  obtain ⟨p, hp, rfl⟩ := hk
  exact h p hp

theorem counter_merge_ok (c d : Counter) (ht : c.title = d.title)
    (h : ∀ p ∈ d.counts, obsIncompatible c.title p.1 = false) :
    c.merge (.counter d) = .ok ⟨c.title, mergeCounts c.counts d.counts⟩ := by
  rw [Counter.merge, if_neg (by simp [MVal.titleOf, ht])]
  exact counter_fold_ok d.counts c h

/-- C5: Counter merge (the multiset union adding other.counts[o] into
self.counts[o]) is commutative and associative on well-formed equal-titled
Counters: a.merge(b) and b.merge(a) give pointwise identical counts mappings
(Python dict equality), and (a.merge(b)).merge(c) agrees with
a.merge(b.merge(c)). -/
theorem counter_merge_comm_assoc (a b c : Counter)
    (hab : a.title = b.title) (hbc : b.title = c.title)
    (ha : a.wfb = true) (hb : b.wfb = true) (hc : c.wfb = true) :
    ∃ ab ba bc abc1 abc2,
      a.merge (.counter b) = .ok ab ∧
      b.merge (.counter a) = .ok ba ∧
      (∀ k, dictGet ab.counts k = dictGet ba.counts k) ∧
      b.merge (.counter c) = .ok bc ∧
      ab.merge (.counter c) = .ok abc1 ∧
      a.merge (.counter bc) = .ok abc2 ∧
      (∀ k, dictGet abc1.counts k = dictGet abc2.counts k) := by
  have hAcB : ∀ p ∈ b.counts, obsIncompatible a.title p.1 = false := by
    intro p hp
    rw [hab]
    exact wfb_compat b hb p hp
  have hBcA : ∀ p ∈ a.counts, obsIncompatible b.title p.1 = false := by
    intro p hp
    rw [← hab]
    exact wfb_compat a ha p hp
  have hBcC : ∀ p ∈ c.counts, obsIncompatible b.title p.1 = false := by
    intro p hp
    rw [hbc]
    exact wfb_compat c hc p hp
  have hAcC : ∀ p ∈ c.counts, obsIncompatible a.title p.1 = false := by
    intro p hp
    rw [hab, hbc]
    exact wfb_compat c hc p hp
  have hAcBC : ∀ p ∈ mergeCounts b.counts c.counts,
      obsIncompatible a.title p.1 = false := by
    intro p hp
    have hk : p.1 ∈ keys (mergeCounts b.counts c.counts) :=
      List.mem_map_of_mem Prod.fst hp
    rcases mem_keys_mergeCounts _ _ _ hk with h2 | h2
    · exact compat_of_keys _ _ hAcB _ h2
    · exact compat_of_keys _ _ hAcC _ h2
  refine ⟨⟨a.title, mergeCounts a.counts b.counts⟩,
    ⟨b.title, mergeCounts b.counts a.counts⟩,
    ⟨b.title, mergeCounts b.counts c.counts⟩,
    ⟨a.title, mergeCounts (mergeCounts a.counts b.counts) c.counts⟩,
    ⟨a.title, mergeCounts a.counts (mergeCounts b.counts c.counts)⟩,
    counter_merge_ok a b hab hAcB,
    counter_merge_ok b a hab.symm hBcA, ?_,
    counter_merge_ok b c hbc hBcC, ?_, ?_, ?_⟩
  · intro k
    rw [dictGet_mergeCounts _ _ (wfb_nodup b hb), dictGet_mergeCounts _ _ (wfb_nodup a ha)]
    cases hA : dictGet a.counts k <;> cases hB : dictGet b.counts k <;>
      simp [hA, hB, add_comm]
  · exact counter_merge_ok ⟨a.title, mergeCounts a.counts b.counts⟩ c
      (hab.trans hbc) hAcC
  · exact counter_merge_ok a ⟨b.title, mergeCounts b.counts c.counts⟩ hab hAcBC
  · intro k
    rw [dictGet_mergeCounts _ _ (wfb_nodup c hc),
      dictGet_mergeCounts _ _ (keys_nodup_mergeCounts _ _ (wfb_nodup b hb)),
      dictGet_mergeCounts _ _ (wfb_nodup b hb),
      dictGet_mergeCounts _ _ (wfb_nodup c hc)]
    cases hA : dictGet a.counts k <;> cases hB : dictGet b.counts k <;>
      cases hC : dictGet c.counts k <;> simp [hA, hB, hC, add_assoc]

theorem obsIncompatible_of_not_tup (t : Title) (h : t.isTup = false) (o : Obs) :
    obsIncompatible t o = false := by
  cases t with
  | scalar s => rfl
  | tup l => simp [Title.isTup] at h

theorem numstat_add_ok (s : NumStat) (v : Obs) (n : ℚ) (h : s.badOKb = true) :
    ∃ s2, s.add v n = .ok s2 ∧ s2.badOKb = true ∧ s2.title = s.title := by
  rw [NumStat.add]
  cases hv : pyFloatOf v with
  | none =>
    cases hb : s.bad with
    | none =>
      refine ⟨_, rfl, ?_, rfl⟩
      simp [NumStat.badOKb, Counter.add, Counter.init,
        obsIncompatible_of_not_tup s.title.badTitle rfl v, Title.badTitle, Title.isTup]
    | some b =>
      have hbt : b.title.isTup = false := by
        simpa [NumStat.badOKb, hb] using h
      refine ⟨{ s with bad := some ⟨b.title, dictAdd b.counts v n⟩ }, ?_, ?_, rfl⟩
      · show Except.map _ (b.add v n) = _
        rw [Counter.add, if_neg (by simp [obsIncompatible_of_not_tup b.title hbt])]
        rfl
      · simp only [NumStat.badOKb, Bool.not_eq_true']
        exact hbt
  | some pf =>
    cases pf with
    | nan => exact ⟨_, rfl, by simpa [NumStat.badOKb] using h, rfl⟩
    | fin q => exact ⟨_, rfl, by simpa [NumStat.badOKb, NumStat.addValid] using h, rfl⟩

theorem numstat_fold_ok (l : Dict) (s : NumStat) (h : s.badOKb = true) :
    ∃ s2, l.foldlM (fun acc p => acc.add p.1 p.2) s = .ok s2 ∧
      s2.badOKb = true ∧ s2.title = s.title := by
  induction l generalizing s with
  | nil => exact ⟨s, rfl, h, rfl⟩
  | cons p t ih =>
    obtain ⟨s1, hs1, hok1, ht1⟩ := numstat_add_ok s p.1 p.2 h
    obtain ⟨s2, hs2, hok2, ht2⟩ := ih s1 hok1
    refine ⟨s2, ?_, hok2, ht2.trans ht1⟩
    rw [List.foldlM_cons, hs1]
    exact hs2

/-- C9: Counter.merge checks the title before the type: differing titles give
TitleMismatch for any argument; with equal titles a NumStat or any non-Counter
argument gives BadMergeType; while NumStat.merge with an equal-titled Counter
returns normally — a defined asymmetry. -/
theorem counter_merge_title_before_type :
    (∀ (c : Counter) (x : MVal), c.title ≠ x.titleOf →
      c.merge x = .error (.titleMismatch c.title x.titleOf)) ∧
    (∀ (c : Counter) (s : NumStat), c.title = s.title →
      c.merge (.numstat s) = .error .badMergeType) ∧
    (∀ (c : Counter) (t : Title), c.title = t →
      c.merge (.other t) = .error .badMergeType) ∧
    (∀ (s : NumStat) (c : Counter), s.title = c.title → s.badOKb = true →
      ∃ s2, s.merge (.counter c) = .ok s2) := by
  refine ⟨?_, ?_, ?_, ?_⟩
  · intro c x h
    delta Counter.merge
    rw [if_pos h]
  · intro c s h
    delta Counter.merge
    rw [if_neg (by simp [MVal.titleOf, h])]
  · intro c t h
    delta Counter.merge
    rw [if_neg (by simp [MVal.titleOf, h])]
  · intro s c ht hok
    obtain ⟨s2, hs2, _, _⟩ := numstat_fold_ok c.counts s hok
    refine ⟨s2, ?_⟩
    rw [NumStat.merge, if_neg (by simp [MVal.titleOf, ht])]
    exact hs2

/-- C9 witness at concrete accumulators. -/
theorem counter_merge_title_before_type_witness :
    (Counter.init (Title.scalar "a")).merge (.numstat (NumStat.init (Title.scalar "a"))) =
        .error .badMergeType ∧
    ∃ s2, (NumStat.init (Title.scalar "a")).merge (.counter (Counter.init (Title.scalar "a"))) =
        .ok s2 :=
  ⟨counter_merge_title_before_type.2.1 _ _ rfl,
   counter_merge_title_before_type.2.2.2 _ _ rfl rfl⟩

/-- C10: NumStat.add never raises: coercion failures go to the lazily created
bad Counter (always scalar-titled `"<title>(bad)"`, so its own add cannot
raise either), NaN bumps nanCount, and valid numbers update the statistics. -/
theorem numstat_add_total (s : NumStat) (v : Obs) (n : ℚ) (h : s.badOKb = true) :
    (∃ s2, s.add v n = .ok s2) ∧
    (pyFloatOf v = none → s.bad = none →
      s.add v n = .ok { s with bad := some ⟨s.title.badTitle, dictAdd [] v n⟩ }) ∧
    (∀ b, pyFloatOf v = none → s.bad = some b →
      s.add v n = .ok { s with bad := some ⟨b.title, dictAdd b.counts v n⟩ }) ∧
    (pyFloatOf v = some .nan → s.add v n = .ok { s with nanCount := s.nanCount + n }) ∧
    (∀ q, pyFloatOf v = some (.fin q) → s.add v n = .ok (s.addValid q n)) := by
  refine ⟨?_, ?_, ?_, ?_, ?_⟩
  · obtain ⟨s2, hs2, _, _⟩ := numstat_add_ok s v n h
    exact ⟨s2, hs2⟩
  · intro h1 h2
    rw [NumStat.add, h1, h2]
    rfl
  · intro b h1 h2
    have hbt : b.title.isTup = false := by
      simpa [NumStat.badOKb, h2] using h
    rw [NumStat.add, h1, h2]
    show Except.map _ (b.add v n) = _
    rw [Counter.add, if_neg (by simp [obsIncompatible_of_not_tup b.title hbt])]
    rfl
  · intro h1
    rw [NumStat.add, h1]
  · intro q h1
    rw [NumStat.add, h1]

/-- C10 witness: a tuple observation (which fails float coercion) with
weight 2 added to a fresh NumStat. -/
theorem numstat_add_total_witness :
    ∃ s2, (NumStat.init (Title.scalar "foo")).add (Obs.tup [.str "x"]) 2 = .ok s2 :=
  (numstat_add_total (NumStat.init (Title.scalar "foo")) (Obs.tup [.str "x"]) 2 rfl).1

/-- C2 counterexample: NumStat.merge with an equal-titled argument that is
neither a NumStat nor a Counter returns normally (it does not fail). -/
theorem numstat_merge_other_cex :
    (NumStat.init (Title.scalar "foo")).merge (MVal.other (Title.scalar "foo")) =
      .ok (NumStat.init (Title.scalar "foo")) := rfl

/-- C2 amended: with an equal title and an argument of any other type,
NumStat.merge silently no-ops, returning with self unchanged. -/
theorem numstat_merge_other_noop (s : NumStat) (t : Title) (h : s.title = t) :
    s.merge (.other t) = .ok s := by
  rw [NumStat.merge, if_neg (by simp [MVal.titleOf, h])]

/-- C2 witness. -/
theorem numstat_merge_other_noop_witness :
    (NumStat.init (Title.scalar "bar")).merge (.other (Title.scalar "bar")) =
      .ok (NumStat.init (Title.scalar "bar")) :=
  numstat_merge_other_noop _ _ rfl

theorem addPy_fin (s : NumStat) (q : ℚ) : addPy s (.fin q) = s.addValid q 1 := rfl

theorem addPy_nan (s : NumStat) : addPy s .nan = { s with nanCount := s.nanCount + 1 } := rfl

theorem tieMin_tie (v1 : WithTop ℚ) (n1 : ℚ) (v2 : WithTop ℚ) (n2 : ℚ) (h : v1 = v2) :
    tieMin (v1, n1) (v2, n2) = (v1, n1 + n2) := by
  rw [tieMin, if_pos h]

theorem tieMin_new (v1 : WithTop ℚ) (n1 : ℚ) (v2 : WithTop ℚ) (n2 : ℚ) (h : v2 < v1) :
    tieMin (v1, n1) (v2, n2) = (v2, n2) := by
  rw [tieMin, if_neg h.ne', if_pos h]

theorem tieMin_keep (v1 : WithTop ℚ) (n1 : ℚ) (v2 : WithTop ℚ) (n2 : ℚ) (h : v1 < v2) :
    tieMin (v1, n1) (v2, n2) = (v1, n1) := by
  rw [tieMin, if_neg h.ne, if_neg (lt_asymm h)]

theorem tieMax_tie (v1 : WithBot ℚ) (n1 : ℚ) (v2 : WithBot ℚ) (n2 : ℚ) (h : v1 = v2) :
    tieMax (v1, n1) (v2, n2) = (v1, n1 + n2) := by
  rw [tieMax, if_pos h]

theorem tieMax_new (v1 : WithBot ℚ) (n1 : ℚ) (v2 : WithBot ℚ) (n2 : ℚ) (h : v1 < v2) :
    tieMax (v1, n1) (v2, n2) = (v2, n2) := by
  rw [tieMax, if_neg h.ne, if_pos h]

theorem tieMax_keep (v1 : WithBot ℚ) (n1 : ℚ) (v2 : WithBot ℚ) (n2 : ℚ) (h : v2 < v1) :
    tieMax (v1, n1) (v2, n2) = (v1, n1) := by
  rw [tieMax, if_neg h.ne', if_neg (lt_asymm h)]

/-- Evaluation of the valid branch when the value is a new joint extremum
(e.g. the first valid observation). -/
theorem addValid_newBoth (s : NumStat) (q n : ℚ)
    (h1 : (q : WithTop ℚ) < s.minV) (h2 : s.maxV < (q : WithBot ℚ)) :
    s.addValid q n =
      { s with
        count := s.count + n
        sumV := s.sumV + q * n
        sum2 := s.sum2 + q * q * n
        minV := (q : WithTop ℚ)
        minN := n
        maxV := (q : WithBot ℚ)
        maxN := n } := by
  simp only [NumStat.addValid, tieMin_new s.minV s.minN q n h1,
    tieMax_new s.maxV s.maxN q n h2]

theorem addValid_newMax (s : NumStat) (q n : ℚ)
    (h1 : s.minV < (q : WithTop ℚ)) (h2 : s.maxV < (q : WithBot ℚ)) :
    s.addValid q n =
      { s with
        count := s.count + n
        sumV := s.sumV + q * n
        sum2 := s.sum2 + q * q * n
        maxV := (q : WithBot ℚ)
        maxN := n } := by
  simp only [NumStat.addValid, tieMin_keep s.minV s.minN q n h1,
    tieMax_new s.maxV s.maxN q n h2]

theorem addValid_newMin (s : NumStat) (q n : ℚ)
    (h1 : (q : WithTop ℚ) < s.minV) (h2 : (q : WithBot ℚ) < s.maxV) :
    s.addValid q n =
      { s with
        count := s.count + n
        sumV := s.sumV + q * n
        sum2 := s.sum2 + q * q * n
        minV := (q : WithTop ℚ)
        minN := n } := by
  simp only [NumStat.addValid, tieMin_new s.minV s.minN q n h1,
    tieMax_keep s.maxV s.maxN q n h2]

theorem addValid_tieMinOnly (s : NumStat) (q n : ℚ)
    (h1 : s.minV = (q : WithTop ℚ)) (h2 : (q : WithBot ℚ) < s.maxV) :
    s.addValid q n =
      { s with
        count := s.count + n
        sumV := s.sumV + q * n
        sum2 := s.sum2 + q * q * n
        minN := s.minN + n } := by
  simp only [NumStat.addValid, tieMin_tie s.minV s.minN q n h1,
    tieMax_keep s.maxV s.maxN q n h2]

theorem addValid_mid (s : NumStat) (q n : ℚ)
    (h1 : s.minV < (q : WithTop ℚ)) (h2 : (q : WithBot ℚ) < s.maxV) :
    s.addValid q n =
      { s with
        count := s.count + n
        sumV := s.sumV + q * n
        sum2 := s.sum2 + q * q * n } := by
  simp only [NumStat.addValid, tieMin_keep s.minV s.minN q n h1,
    tieMax_keep s.maxV s.maxN q n h2]

theorem addValid_tieBoth (s : NumStat) (q n : ℚ)
    (h1 : s.minV = (q : WithTop ℚ)) (h2 : s.maxV = (q : WithBot ℚ)) :
    s.addValid q n =
      { s with
        count := s.count + n
        sumV := s.sumV + q * n
        sum2 := s.sum2 + q * q * n
        minN := s.minN + n
        maxN := s.maxN + n } := by
  simp only [NumStat.addValid, tieMin_tie s.minV s.minN q n h1,
    tieMax_tie s.maxV s.maxN q n h2]

theorem c3build :
    buildPy (Title.scalar "foo")
      [.fin 1, .fin 2, .fin 1, .fin 3, .fin 0, .fin 0, .fin 0, .fin 0, .nan] = c3result := by
  rw [buildPy]
  simp (disch := decide) only [List.foldl_cons, List.foldl_nil, addPy_fin, addPy_nan,
    addValid_newBoth, addValid_newMax, addValid_newMin, addValid_tieMinOnly,
    addValid_tieBoth, addValid_mid, NumStat.init]
  simp only [c3result, NumStat.mk.injEq]
  norm_num

theorem c3ofValues :
    NumStat.ofValues (Title.scalar "foo") c3seq = .ok c3result := by
  have h : c3seq =
      ([.fin 1, .fin 2, .fin 1, .fin 3, .fin 0, .fin 0, .fin 0, .fin 0,
        PyFloat.nan] : List PyFloat).map pyObs := rfl
  rw [h, ofValues_buildPy, c3build]

/-- C3 counterexample: the sequence contains four zeros, so `minN` is 4,
not the 5 the spec states. -/
theorem numstat_example_minN_cex :
    NumStat.ofValues (Title.scalar "foo") c3seq = .ok c3result ∧
    c3result.minN = 4 ∧ c3result.minN ≠ 5 := by
  refine ⟨c3ofValues, rfl, ?_⟩
  norm_num [c3result]

/-- C3 amended: adding `[1, 2, 1, 3, 0, 0, 0, 0, NaN]` to a fresh NumStat
yields `count=8, sumV=7, minV=0, minN=4, maxV=3, maxN=1, nanCount=1` and
`num()=9` (the claim is right except that `minN` is 4, not 5). -/
theorem numstat_example_values :
    NumStat.ofValues (Title.scalar "foo") c3seq = .ok c3result ∧
    c3result.count = 8 ∧ c3result.sumV = 7 ∧ c3result.minV = (0 : ℚ) ∧
    c3result.minN = 4 ∧ c3result.maxV = (3 : ℚ) ∧ c3result.maxN = 1 ∧
    c3result.nanCount = 1 ∧ c3result.num = 9 := by
  refine ⟨c3ofValues, rfl, rfl, rfl, rfl, rfl, rfl, rfl, ?_⟩
  norm_num [c3result, NumStat.num]

/-- C4: the NumStat-with-NumStat branch of merge never touches the bad
buckets: merging an accumulator with `num() = 1` (one bad observation "abc")
into a fresh same-titled accumulator returns the fresh accumulator exactly,
with `num() = 0` — the bad observation is silently dropped, contradicting
the spec's merge exactness and `num()` additivity. -/
theorem numstat_merge_drops_bad :
    (NumStat.init (Title.scalar "foo")).add (Obs.scalar (.str "abc")) 1 = .ok c4bad ∧
    c4bad.num = 1 ∧
    (NumStat.init (Title.scalar "foo")).merge (.numstat c4bad) =
      .ok (NumStat.init (Title.scalar "foo")) ∧
    (NumStat.init (Title.scalar "foo")).num = 0 := by
  have hv : pyFloatOf (Obs.scalar (.str "abc")) = none := by decide
  refine ⟨?_, ?_, ?_, ?_⟩
  · rw [NumStat.add, hv]
    show Except.map _ ((Counter.init ((Title.scalar "foo").badTitle)).add _ 1) = _
    rw [Counter.add, if_neg (by decide)]
    show Except.ok _ = _
    rw [Except.ok.injEq]
    show ({ NumStat.init (Title.scalar "foo") with
      bad := some ⟨Title.scalar "foo(bad)", dictAdd [] (Obs.scalar (.str "abc")) 1⟩ } : NumStat) = _
    rw [c4bad]
    norm_num [dictAdd, dictGet, dictSet]
  · norm_num [c4bad, NumStat.num, NumStat.init, Counter.num]
  · rw [NumStat.merge, if_neg (by decide)]
    rw [Except.ok.injEq]
    simp (disch := decide) only [NumStat.mergeNS, NumStat.init, c4bad,
      tieMin_tie, tieMax_tie]
    norm_num
  · norm_num [NumStat.num, NumStat.init]

/-- C6 counterexample: merging a Counter holding the text "2" into a fresh
same-titled NumStat re-attempts coercion; "2" becomes a valid numeric
observation (`count = 1, sumV = 2`) and the bad bucket stays absent. -/
theorem numstat_merge_counter_coerces_cex :
    (NumStat.init (Title.scalar "foo")).merge (.counter c6counter) = .ok c6result ∧
    c6result.count = 1 ∧ c6result.sumV = 2 ∧ c6result.bad = none := by
  refine ⟨?_, rfl, rfl, rfl⟩
  rw [NumStat.merge, if_neg (by decide)]
  show ([(Obs.scalar (.str "2"), 1)] : Dict).foldlM _ _ = _
  have hv : pyFloatOf (Obs.scalar (.str "2")) = some (.fin 2) := by decide
  rw [List.foldlM_cons, NumStat.add, hv]
  show Except.ok ((NumStat.init (Title.scalar "foo")).addValid 2 1) = _
  rw [Except.ok.injEq, addValid_newBoth _ 2 1 (by decide) (by decide)]
  norm_num [NumStat.init, c6result]

/-- C6 amended: NumStat.merge(Counter) re-attempts numeric coercion on every
raw key: a key whose text parses as a number is added as a valid numeric
observation of the given weight rather than staying non-numeric. -/
theorem numstat_merge_counter_coerces (t : Title) (w : String) (q : ℚ) (n : ℚ)
    (hq : pyParseFloat w = some q) :
    (NumStat.init t).merge (.counter ⟨t, [(Obs.scalar (.str w), n)]⟩) =
      .ok ((NumStat.init t).addValid q n) := by
  rw [NumStat.merge, if_neg (by simp [MVal.titleOf, NumStat.init])]
  have hv : pyFloatOf (Obs.scalar (.str w)) = some (.fin q) := by
    simp [pyFloatOf, hq]
  show ([(Obs.scalar (.str w), n)] : Dict).foldlM _ _ = _
  rw [List.foldlM_cons, NumStat.add, hv]
  rfl

/-- C6 witness at the string "2". -/
theorem numstat_merge_counter_coerces_witness :
    (NumStat.init (Title.scalar "foo")).merge
        (.counter ⟨Title.scalar "foo", [(Obs.scalar (.str "2"), 3)]⟩) =
      .ok ((NumStat.init (Title.scalar "foo")).addValid 2 3) :=
  numstat_merge_counter_coerces (Title.scalar "foo") "2" 2 3 (by decide)

/-- C7: a tuple-titled Counter rejects any observation that is not a tuple of
the title's arity with IncompatibleObservation carrying title and observation
(the embedding being functional, an error means counts was not mutated); a
matching-arity tuple increments its entry by the weight, creating it at 0
when absent. -/
theorem counter_add_tuple_arity (c : Counter) (ts : List String) (o : Obs) (w : ℚ)
    (h : c.title = .tup ts) :
    ((∀ os, o ≠ Obs.tup os) → c.add o w = .error (.incompatibleObservation c.title o)) ∧
    (∀ os, o = Obs.tup os → os.length ≠ ts.length →
      c.add o w = .error (.incompatibleObservation c.title o)) ∧
    (∀ os, o = Obs.tup os → os.length = ts.length →
      c.add o w = .ok ⟨c.title, dictAdd c.counts o w⟩ ∧
      dictGet (dictAdd c.counts o w) o = some ((dictGet c.counts o).getD 0 + w) ∧
      ∀ k, k ≠ o → dictGet (dictAdd c.counts o w) k = dictGet c.counts k) := by
  refine ⟨?_, ?_, ?_⟩
  · intro hno
    cases o with
    | scalar sc => rw [Counter.add, if_pos (by rw [h]; rfl)]
    | tup os => exact absurd rfl (hno os)
  · rintro os rfl hlen
    have hdec : obsIncompatible c.title (Obs.tup os) = true := by
      rw [h]
      simp only [obsIncompatible, decide_eq_true_eq]
      exact fun he => hlen he.symm
    rw [Counter.add, if_pos hdec]
  · rintro os rfl hlen
    have hdec : obsIncompatible c.title (Obs.tup os) = false := by
      rw [h]
      simp [obsIncompatible, hlen.symm]
    refine ⟨?_, ?_, ?_⟩
    · rw [Counter.add, if_neg (by simp [hdec])]
    · rw [dictGet_dictAdd, if_pos rfl]
    · intro k hk
      rw [dictGet_dictAdd, if_neg hk]

/-- C7 witness: a 2-tuple-titled Counter accepting a 2-tuple observation. -/
theorem counter_add_tuple_arity_witness :
    (Counter.init (Title.tup ["a", "b"])).add (Obs.tup [.str "x", .str "y"]) 2 =
      .ok ⟨Title.tup ["a", "b"], dictAdd [] (Obs.tup [.str "x", .str "y"]) 2⟩ :=
  ((counter_add_tuple_arity (Counter.init (Title.tup ["a", "b"])) ["a", "b"]
      (Obs.tup [.str "x", .str "y"]) 2 rfl).2.2 _ rfl rfl).1

theorem buildPy_const (t : Title) (q : ℚ) (n : ℕ) :
    buildPy t (List.replicate (n + 1) (.fin q)) = constNS t q (n + 1) := by
  induction n with
  | zero =>
    rw [buildPy]
    simp only [List.replicate, List.foldl_cons, List.foldl_nil, addPy_fin]
    rw [addValid_newBoth _ q 1 (by simp [NumStat.init]) (by simp [NumStat.init])]
    simp only [constNS, NumStat.init, NumStat.mk.injEq]
    norm_num
  | succ m ih =>
    rw [List.replicate_succ' (m + 1), buildPy, List.foldl_append]
    rw [buildPy] at ih
    rw [ih]
    simp only [List.foldl_cons, List.foldl_nil, addPy_fin]
    rw [addValid_tieBoth _ q 1 rfl rfl]
    simp only [constNS, NumStat.mk.injEq]
    push_cast
    and_intros <;> first | rfl | trivial | ring

theorem constNS_count_ne (t : Title) (q : ℚ) (n : ℕ) :
    (constNS t q (n + 1)).count ≠ 0 := by
  simp only [constNS]
  exact Nat.cast_ne_zero.mpr (Nat.succ_ne_zero n)

theorem constNS_span (t : Title) (q : ℚ) (n : ℕ) : (constNS t q (n + 1)).span = 0 := by
  simp [NumStat.span, constNS]

theorem constNS_stdDev (t : Title) (q : ℚ) (n : ℕ) :
    (q ≠ 0 → (constNS t q (n + 1)).stdDev = .guardZero) ∧
    (q = 0 → (constNS t q (n + 1)).stdDev = .root 0) := by
  constructor
  · intro hq
    rw [NumStat.stdDev, if_neg (constNS_count_ne t q n), if_pos ?pos]
    case pos =>
      rw [constNS_span]
      show (0 : ℚ) < machineEpsilon * (constNS t q (n + 1)).sum2
      simp only [constNS]
      refine mul_pos (by norm_num [machineEpsilon]) (mul_pos (mul_self_pos.mpr hq) ?_)
      exact_mod_cast Nat.cast_pos.mpr (Nat.succ_pos n)
  · intro hq
    subst hq
    rw [NumStat.stdDev, if_neg (constNS_count_ne t 0 n), if_neg ?neg]
    · rw [StdDevOut.root.injEq]
      norm_num [constNS]
    case neg =>
      rw [constNS_span]
      simp only [constNS]
      norm_num

/-- C8: stdDev is NaN exactly on the empty accumulator; when the guard
`(maxV - minV) < machineEpsilon * sum2` holds it returns exactly 0 without
evaluating the square root; on a non-empty constant sequence it returns
exactly 0 — via the guard when the constant is nonzero, and via
`sqrt(0) = 0` (the radicand is exactly 0, never negative) on the
all-zeros sequence where the guard comparison `0 < 0` is false. -/
theorem numstat_stdDev_guard :
    (∀ s : NumStat, s.count = 0 → s.stdDev = .nan) ∧
    (∀ s : NumStat, s.count ≠ 0 → s.span < machineEpsilon * s.sum2 →
      s.stdDev = .guardZero) ∧
    (∀ (t : Title) (q : ℚ) (n : ℕ),
      NumStat.ofValues t (List.replicate (n + 1) (Obs.scalar (.num q))) =
        .ok (constNS t q (n + 1)) ∧
      (constNS t q (n + 1)).stdDev ≠ .nan ∧
      (∀ r, (constNS t q (n + 1)).stdDev = .root r → r = 0) ∧
      (q ≠ 0 → (constNS t q (n + 1)).stdDev = .guardZero) ∧
      (q = 0 → (constNS t q (n + 1)).stdDev = .root 0)) := by
  refine ⟨?_, ?_, ?_⟩
  · intro s h
    rw [NumStat.stdDev, if_pos h]
  · intro s h1 h2
    rw [NumStat.stdDev, if_neg h1, if_pos h2]
  · intro t q n
    refine ⟨?_, ?_, ?_, (constNS_stdDev t q n).1, (constNS_stdDev t q n).2⟩
    · have hmap : List.replicate (n + 1) (Obs.scalar (.num q)) =
          (List.replicate (n + 1) (PyFloat.fin q)).map pyObs := by
        rw [List.map_replicate]
        rfl
      rw [hmap, ofValues_buildPy, buildPy_const]
    · by_cases hq : q = 0
      · rw [(constNS_stdDev t q n).2 hq]
        simp
      · rw [(constNS_stdDev t q n).1 hq]
        simp
    · intro r hr
      by_cases hq : q = 0
      · rw [(constNS_stdDev t q n).2 hq] at hr
        exact ((StdDevOut.root.injEq _ _).mp hr).symm
      · rw [(constNS_stdDev t q n).1 hq] at hr
        exact absurd hr (by simp)

/-- C8 witness: ten copies of the constant 5, and ten copies of 0. -/
theorem numstat_stdDev_guard_witness :
    (constNS (Title.scalar "k") 5 10).stdDev = .guardZero ∧
    (constNS (Title.scalar "k") 0 10).stdDev = .root 0 :=
  ⟨(numstat_stdDev_guard.2.2 (Title.scalar "k") 5 9).2.2.2.1 (by norm_num),
   (numstat_stdDev_guard.2.2 (Title.scalar "k") 0 9).2.2.2.2 rfl⟩

/-- C5 witness at three concrete equal-titled Counters. -/
theorem counter_merge_comm_assoc_witness :
    ∃ ab ba bc abc1 abc2,
      (⟨Title.scalar "t", [(Obs.scalar (.str "x"), 1)]⟩ : Counter).merge
          (.counter ⟨Title.scalar "t", [(Obs.scalar (.str "y"), 2)]⟩) = .ok ab ∧
      (⟨Title.scalar "t", [(Obs.scalar (.str "y"), 2)]⟩ : Counter).merge
          (.counter ⟨Title.scalar "t", [(Obs.scalar (.str "x"), 1)]⟩) = .ok ba ∧
      (∀ k, dictGet ab.counts k = dictGet ba.counts k) ∧
      (⟨Title.scalar "t", [(Obs.scalar (.str "y"), 2)]⟩ : Counter).merge
          (.counter (Counter.init (Title.scalar "t"))) = .ok bc ∧
      ab.merge (.counter (Counter.init (Title.scalar "t"))) = .ok abc1 ∧
      (⟨Title.scalar "t", [(Obs.scalar (.str "x"), 1)]⟩ : Counter).merge
          (.counter bc) = .ok abc2 ∧
      (∀ k, dictGet abc1.counts k = dictGet abc2.counts k) :=
  counter_merge_comm_assoc
    ⟨Title.scalar "t", [(Obs.scalar (.str "x"), 1)]⟩
    ⟨Title.scalar "t", [(Obs.scalar (.str "y"), 2)]⟩
    (Counter.init (Title.scalar "t"))
    rfl rfl (by decide) (by decide) (by decide)
